import Mathlib

/-!
Verification of the `product_package` Tryton module (`product.py`) against its
natural-language specification.

The module is a shallow embedding of the relevant parts of `product.py`:

* `product.package` records become the `Package` structure; a database is a
  `List Package`.
* The `One2Many` collections `Template.packages` / `Product.packages` (whose
  reverse fields are `template` / `product`) become filters over the database.
* Fallible class methods (`create`, `write`, `validate`, guarded by the
  `check_new_package` / `check_no_package` decorators) become functions into
  `Except String α`; the `String` carries the message key of the raised
  `UserError` / `AccessError` (or a description of the Python exception).
* Hooks that downstream modules may override (`Package._create_package`,
  `Package.find_packages`) are threaded as explicit parameters; the values this
  module itself installs are bound to named constants.
-/

/-- A stored `product.package` record.  Fields translate the declarations of
`class Package` in `product.py`: `template` and `product` are nullable
`Many2One` references (held as ids), `name` is a required char field,
`quantity` a required float with domain `quantity > 0`, `is_default` a
boolean, and `sequence` is the nullable ordering key added by the
`sequence_ordered()` mixin. -/
structure Package where
  id : Nat
  template : Option Nat := none
  product : Option Nat := none
  name : String := ""
  quantity : Rat := 1
  is_default : Bool := true
  sequence : Option Int := none
deriving DecidableEq

/-- Embedding of `Template.packages`: the `One2Many('product.package', 'template', ...)`
collection of the template with id `tid`. -/
def templatePackages (db : List Package) (tid : Nat) : List Package :=
  db.filter (fun package => package.template == some tid)

/-- Embedding of `Product.packages`: the `One2Many('product.package', 'product', ...)`
collection of the product with id `pid`. -/
def productPackages (db : List Package) (pid : Nat) : List Package :=
  db.filter (fun package => package.product == some pid)

/-- Number of packages flagged `is_default` in a collection. -/
def countDefaults (packages : List Package) : Nat :=
  (packages.filter (fun package => package.is_default)).length

/-- Embedding of `Template.get_default_package` (`product.py`): if the collection is
non-empty, return the first package with `is_default` set; the `for`/`else`
falls back to `self.packages[0]` when the loop finds none; an empty
collection returns `None`. -/
def Template.get_default_package (packages : List Package) : Option Package :=
  if packages.isEmpty then none
  else
    match packages.find? (fun package => package.is_default) with
    | some package => some package
    | none => packages.head?

/-- Embedding of `Product.get_default_package` (`product.py`): identical body to the
template-level method. -/
def Product.get_default_package (packages : List Package) : Option Package :=
  if packages.isEmpty then none
  else
    match packages.find? (fun package => package.is_default) with
    | some package => some package
    | none => packages.head?

/-- The inner loop of `Package.validate`: walk a sibling collection
(`package.template.packages` or `package.product.packages`); for each sibling
flagged `is_default` read its owner id (`pack.template.id` resp.
`pack.product.id`, via `ownerOf`; siblings always carry their owner, the
`getD 0` is never reached on collections produced by the filters above); if the
id was already collected, set `is_unique = False` and `break`, otherwise append
the id.  Returns the updated collected list and the `is_unique` outcome of this
walk. -/
def defaultOwnerScan (ownerOf : Package → Option Nat) :
    List Package → List Nat → List Nat × Bool
  | [], seen => (seen, true)
  | pack :: rest, seen =>
    if pack.is_default then
      let oid := (ownerOf pack).getD 0
      if oid ∈ seen then (seen, false)
      else defaultOwnerScan ownerOf rest (seen ++ [oid])
    else defaultOwnerScan ownerOf rest seen

/-- The `if package.template:` block of `Package.validate`: when the validated
package has a template, scan that template's sibling collection; otherwise the
block is skipped (`templates` unchanged, walk vacuously unique). -/
def scanT (db : List Package) (package : Package) (templates : List Nat) :
    List Nat × Bool :=
  match package.template with
  | some tid => defaultOwnerScan Package.template (templatePackages db tid) templates
  | none => (templates, true)

/-- The `if package.product:` block of `Package.validate`, symmetric to
`scanT`. -/
def scanP (db : List Package) (package : Package) (products : List Nat) :
    List Nat × Bool :=
  match package.product with
  | some pid => defaultOwnerScan Package.product (productPackages db pid) products
  | none => (products, true)

/-- The outer loop of `Package.validate`: for each validated package flagged
`is_default`, scan the sibling collection of its template (when set) and of
its product (when set), accumulating the `templates` and `products` id lists
across the whole validated set.  `is_unique` starts `True` and is never reset;
in the Python source a duplicate only breaks the inner loop, the outer loop
keeps running, which the `&&`-accumulation reproduces. -/
def validateAux (db : List Package) :
    List Package → List Nat → List Nat → Bool → Bool
  | [], _, _, is_unique => is_unique
  | package :: rest, templates, products, is_unique =>
    if package.is_default then
      validateAux db rest (scanT db package templates).1 (scanP db package products).1
        (is_unique && (scanT db package templates).2 && (scanP db package products).2)
    else validateAux db rest templates products is_unique

/-- Message key of the `UserError` raised by `Package.validate`. -/
def msg_is_default_unique : String := "product_package.msg_is_default_unique"

/-- Embedding of `Package.validate` (`product.py`): after the superclass validation, check
that among the siblings of each validated default package at most one package
is flagged default; otherwise raise
`UserError(gettext('product_package.msg_is_default_unique'))`. -/
def Package.validate (db : List Package) (packages : List Package) :
    Except String Unit :=
  if validateAux db packages [] [] true then Except.ok ()
  else Except.error msg_is_default_unique

/-- The creation context relevant to default values: the form view passes
`default_uom` (and with it the unit's precision) in the field context. -/
structure CreateContext where
  default_uom_digits : Nat
deriving DecidableEq

/-- Embedding of `Package.default_quantity` (`product.py`): `return 1`. -/
def Package.default_quantity : Rat := 1

/-- Embedding of `Package.default_is_default` (`product.py`): `return True`. -/
def Package.default_is_default : Bool := true

/-- Default of the `sequence` ordering key on creation.  `class Package` in
`product.py` defines `default_quantity` and `default_is_default` only; neither
it nor the `sequence_ordered()` mixin supplies a default for `sequence`, so a
create without an explicit value leaves the ordering key unset whatever the
context carries. -/
def Package.default_sequence (ctx : CreateContext) : Option Int :=
  match ctx with
  | _ => none

/-- One entry of the `vlist` passed to `Package.create`: a field-value
dictionary.  `none` means the key is absent (the field's default applies). -/
structure PackageValues where
  template : Option Nat := none
  product : Option Nat := none
  name : Option String := none
  quantity : Option Rat := none
  is_default : Option Bool := none
  sequence : Option Int := none
deriving DecidableEq

/-- A row of a registered consumer entity (e.g. a sale line): it references a
product (`row.product`), through it a template (`row.product.template`), and
optionally a package (`row.product_package`). -/
structure ConsumerRow where
  product : Nat
  product_template : Nat
  product_package : Option Nat := none
deriving DecidableEq

/-- The inner `find_packages` of the `check_new_package` decorator
(`product.py`): search the consumer model for a row with
`['OR', ('product.template', 'in', ids), ('product', 'in', ids)]` and
`('product_package', '=', None)`; `grouped_slice` plus `limit=1` make the
result an existence test. -/
def find_packages_rows (rows : List ConsumerRow) (ids : List Nat) : Bool :=
  rows.any (fun row =>
    (row.product_template ∈ ids || row.product ∈ ids) &&
      row.product_package == none)

/-- The expression `list(set([r.get('template') for r in vlist if r.get('template')]))`:
the truthy (non-zero, present) template ids of a value list, deduplicated. -/
def vlistTemplates (vlist : List PackageValues) : List Nat :=
  ((vlist.filterMap PackageValues.template).filter (fun t => t != 0)).dedup

/-- The expression `list(set([r.get('product') for r in vlist if r.get('product')]))`:
the truthy (non-zero, present) product ids of a value list, deduplicated. -/
def vlistProducts (vlist : List PackageValues) : List Nat :=
  ((vlist.filterMap PackageValues.product).filter (fun p => p != 0)).dedup

/-- The `check_new_package` decorator around `Package.create` (`product.py`).
`registry` stands for `Package._create_package` (pairs of a consumer model's
rows and its message key; the module itself installs `[]`, see
`Package.create_package_registry`).  When the transaction user is not the
system user and `_check_access` is set, the first registry entry for which
the consumer model holds a blocking row — searched once against the value
list's product ids and once against its template ids — raises
`AccessError(gettext(msg))`. -/
def check_new_package (user : Nat) (check_access : Bool)
    (registry : List (List ConsumerRow × String))
    (vlist : List PackageValues) : Except String Unit :=
  if user ≠ 0 ∧ check_access then
    let templates := vlistTemplates vlist
    let products := vlistProducts vlist
    match registry.find? (fun entry =>
        find_packages_rows entry.1 products || find_packages_rows entry.1 templates) with
    | some entry => Except.error entry.2
    | none => Except.ok ()
  else Except.ok ()

/-- The field domain `[('quantity', '>', 0)]` declared on `Package.quantity`. -/
def quantity_domain (q : Rat) : Bool := decide (0 < q)

/-- The SQL constraint `Check(t, t.quantity > 0)` installed by
`Package.__setup__`. -/
def quantity_sql_check (q : Rat) : Bool := decide (0 < q)

/-- Message key of the SQL constraint `quantity_greater_than_zero`. -/
def msg_quantity_greater_than_zero : String :=
  "product_package.msg_quantity_greater_than_zero"

/-- Turn a value list into stored records: ids are assigned consecutively from
`freshId`; absent values fall back to the class defaults (`default_quantity`,
`default_is_default`, and the absent `sequence` default, cf.
`Package.default_sequence`). -/
def assignNew (ctx : CreateContext) (freshId : Nat) :
    List PackageValues → List Package
  | [] => []
  | v :: rest =>
    { id := freshId,
      template := v.template,
      product := v.product,
      name := v.name.getD (""),
      quantity := v.quantity.getD Package.default_quantity,
      is_default := v.is_default.getD Package.default_is_default,
      sequence :=
        match v.sequence with
        | some s => some s
        | none => Package.default_sequence ctx } :: assignNew ctx (freshId + 1) rest

/-- Embedding of `Package.create` (`product.py`): the `check_new_package` guard runs first;
then the framework applies defaults, inserts the rows (where the `NOT NULL`
constraint on `name` and the SQL check `quantity > 0` fire), validates the
field domain `quantity > 0`, and finally calls `Package.validate` on the new
records against the post-insert database. -/
def Package.create (user : Nat) (check_access : Bool)
    (registry : List (List ConsumerRow × String)) (ctx : CreateContext)
    (db : List Package) (vlist : List PackageValues) (freshId : Nat) :
    Except String (List Package) :=
  match check_new_package user check_access registry vlist with
  | Except.error e => Except.error e
  | Except.ok () =>
    if ¬ (assignNew ctx freshId vlist).all (fun p => quantity_sql_check p.quantity) then
      Except.error msg_quantity_greater_than_zero
    else if ¬ vlist.all (fun v => v.name.isSome) then
      Except.error ("required:name")
    else if ¬ (assignNew ctx freshId vlist).all (fun p => quantity_domain p.quantity) then
      Except.error ("domain_validation:quantity")
    else
      match Package.validate (db ++ assignNew ctx freshId vlist) (assignNew ctx freshId vlist) with
      | Except.error e => Except.error e
      | Except.ok () => Except.ok (db ++ assignNew ctx freshId vlist)

/-- One `values` dictionary of a `Package.write` call; `none` means the key is
absent.  `sequence` distinguishes an absent key from an explicit null. -/
structure WriteValues where
  template : Option (Option Nat) := none
  product : Option (Option Nat) := none
  name : Option String := none
  quantity : Option Rat := none
  is_default : Option Bool := none
  sequence : Option (Option Int) := none
deriving DecidableEq

/-- The test `field in values`: key-presence test used by the `check_no_package`
decorator against the field names of `Package._modify_no_package`. -/
def hasField (values : WriteValues) : String → Bool
  | "template" => values.template.isSome
  | "product" => values.product.isSome
  | "name" => values.name.isSome
  | "quantity" => values.quantity.isSome
  | "is_default" => values.is_default.isSome
  | "sequence" => values.sequence.isSome
  | _ => false

/-- Apply one `values` dictionary to one record. -/
def applyVals (p : Package) (values : WriteValues) : Package :=
  { p with
    template := values.template.getD p.template,
    product := values.product.getD p.product,
    name := values.name.getD p.name,
    quantity := values.quantity.getD p.quantity,
    is_default := values.is_default.getD p.is_default,
    sequence := values.sequence.getD p.sequence }

/-- The list `Package._modify_no_package` as installed by `Package.__setup__`
(`product.py`): the single protected field `quantity` with its message key. -/
def Package.modify_no_package : List (String × String) :=
  [("quantity", "product_package.msg_product_package_qty")]

/-- The registry `Package._create_package` as installed by `Package.__setup__`
(`product.py`): the registry starts empty; downstream modules append to it. -/
def Package.create_package_registry : List (List ConsumerRow × String) := []

/-- The base `Package.find_packages` (`product.py`): `return False` for every
input; downstream modules override it. -/
def Package.find_packages : List Nat → Bool := fun _ => false

/-- The field loop of the `check_no_package` decorator: for the first field of
`Package._modify_no_package` present in `values`, raise the field's message
when `Package.find_packages(records)` finds references, otherwise `break`. -/
def fieldsCheck (findPackages : List Nat → Bool) (records : List Nat)
    (values : WriteValues) : List (String × String) → Except String Unit
  | [] => Except.ok ()
  | (field, msg) :: rest =>
    if hasField values field then
      if findPackages records then Except.error msg else Except.ok ()
    else fieldsCheck findPackages records values rest

/-- The `(records, values)` pair loop of the `check_no_package` decorator
(`zip(actions, actions)` pairs consecutive positional arguments). -/
def pairsCheck (findPackages : List Nat → Bool)
    (registry : List (String × String)) :
    List (List Nat × WriteValues) → Except String Unit
  | [] => Except.ok ()
  | (records, values) :: rest =>
    match fieldsCheck findPackages records values registry with
    | Except.error e => Except.error e
    | Except.ok () => pairsCheck findPackages registry rest

/-- The `check_no_package` decorator around `Package.write` (`product.py`):
active only for a non-system user with `_check_access` set. -/
def check_no_package (user : Nat) (check_access : Bool)
    (findPackages : List Nat → Bool) (registry : List (String × String))
    (args : List (List Nat × WriteValues)) : Except String Unit :=
  if user ≠ 0 ∧ check_access then pairsCheck findPackages registry args
  else Except.ok ()

/-- All record ids targeted by a write's argument pairs. -/
def writtenIds (args : List (List Nat × WriteValues)) : List Nat :=
  args.flatMap (fun action => action.1)

/-- Apply the write's argument pairs in order.  Each pair issues one UPDATE,
so the SQL check `quantity > 0` fires per pair on the records it touched. -/
def applyPairs (db : List Package) :
    List (List Nat × WriteValues) → Except String (List Package)
  | [] => Except.ok db
  | (records, values) :: rest =>
    let db2 := db.map (fun p => if p.id ∈ records then applyVals p values else p)
    if (db2.filter (fun p => p.id ∈ records)).all
        (fun p => quantity_sql_check p.quantity) then
      applyPairs db2 rest
    else Except.error msg_quantity_greater_than_zero

/-- Embedding of `Package.write` (`product.py`): the `check_no_package` guard runs first;
then the framework applies each `(records, values)` pair (the SQL check
`quantity > 0` firing per UPDATE) and finally calls `Package.validate` on the
written records against the post-write database.  `findPackages` stands for
the overridable `Package.find_packages` hook (base value: always `False`). -/
def Package.write (user : Nat) (check_access : Bool)
    (findPackages : List Nat → Bool) (db : List Package)
    (args : List (List Nat × WriteValues)) : Except String (List Package) :=
  match check_no_package user check_access findPackages Package.modify_no_package args with
  | Except.error e => Except.error e
  | Except.ok () =>
    match applyPairs db args with
    | Except.error e => Except.error e
    | Except.ok db2 =>
      match Package.validate db2 (db2.filter (fun p => p.id ∈ writtenIds args)) with
      | Except.error e => Except.error e
      | Except.ok () => Except.ok db2
/-- The `to_copy` list built by `Template.copy` (`product.py`): for each
duplicated template, the packages of its collection whose `product` field is
not set (`if not package.product`) — variant-specific packages are skipped. -/
def copyTargets (db : List Package) (templates : List Nat) : List Package :=
  templates.flatMap (fun t =>
    (templatePackages db t).filter (fun package => package.product == none))

/-- The framework's `Package.copy(records, default)`: each record is stored
again under a fresh id; a `template` (resp. `product`) entry in `default`
holds a callable rewriting the field from the old value — here always the
id-remapping tables built by the callers, passed as functions. -/
def Package.copyRecords (freshId : Nat) (tMap : Option (Nat → Nat))
    (pMap : Option (Nat → Nat)) : List Package → List Package
  | [] => []
  | package :: rest =>
    { package with
      id := freshId,
      template :=
        match tMap with
        | some f => package.template.map f
        | none => package.template,
      product :=
        match pMap with
        | some f => package.product.map f
        | none => package.product } ::
      Package.copyRecords (freshId + 1) tMap pMap rest

/-- Embedding of `Template.copy` (`product.py`): `copy_packages` is true iff the caller put
no `packages` entry in `default`; `default['packages']` is then forced to
`None` so the base copy duplicates no packages, and afterwards the packages of
each template that are not variant-specific are copied with their `template`
reference rewritten through `old2new` (modelled as the `newTemplateId` map,
with which the `{template.id: new_template.id}` dictionary agrees on the
copied templates).  When the caller did supply a `packages` override the
module copies nothing itself (the base class applies the override; not
modelled further, no claim depends on it). -/
def Template.copy (db : List Package) (templates : List Nat)
    (newTemplateId : Nat → Nat) (defaultHasPackages : Bool) (freshId : Nat) :
    List Package :=
  if defaultHasPackages then db
  else
    let to_copy := copyTargets db templates
    if to_copy.isEmpty then db
    else db ++ Package.copyRecords freshId (some newTemplateId) none to_copy

/-- A `product.product` record as far as this module reads it: its id and its
template's id. -/
structure ProductRec where
  id : Nat
  template : Nat
deriving DecidableEq

/-- Embedding of `Product.copy` (`product.py`).  `copy_packages` is true iff the caller put
no `packages` entry in `default`; packages are handled only when the caller
also put a `product` entry in `default` (`if 'product' in default and
copy_packages`).  That branch opens with
`for product, new_product in zip(product, new_products):` — the iterator
expression reads the local name `product`, which is only assigned by the loop
itself (the function parameter is `products`), so CPython raises
`UnboundLocalError` as soon as the branch is entered, before any package is
copied.  The embedding returns that exception as an error.  Outside the
branch the module itself touches no package (the base class behaviour for a
caller-supplied override or for a copy without a `product` entry is not
modelled further; no claim depends on it). -/
def Product.copy (db : List Package) (products : List ProductRec)
    (defaultHasProduct : Bool) (defaultHasPackages : Bool) :
    Except String (List Package) :=
  let copy_packages := !defaultHasPackages
  if defaultHasProduct && copy_packages then
    Except.error ("UnboundLocalError: local variable referenced before assignment")
  else
    match products with
    | _ => Except.ok db

/-- A `match` pattern as used by `package_used`: a dictionary of field
constraints; `none` leaves the field unconstrained. -/
structure Pattern where
  template : Option (Option Nat) := none
  product : Option (Option Nat) := none
  name : Option String := none
  quantity : Option Rat := none
  is_default : Option Bool := none
deriving DecidableEq

/-- The framework's `Record.match(pattern)`: every field mentioned in the
pattern must equal the record's value. -/
def matchPattern (package : Package) (pattern : Pattern) : Bool :=
  (match pattern.template with
   | some v => package.template == v
   | none => true) &&
  (match pattern.product with
   | some v => package.product == v
   | none => true) &&
  (match pattern.name with
   | some v => package.name == v
   | none => true) &&
  (match pattern.quantity with
   | some v => package.quantity == v
   | none => true) &&
  (match pattern.is_default with
   | some v => package.is_default == v
   | none => true)

/-- Embedding of `Template.package_used` (`product.py`): yield every package of the
template's collection matching the pattern (re-reading the record as the root
user only lifts access rules, which the embedding has none of). -/
def Template.package_used (db : List Package) (tid : Nat) (pattern : Pattern) :
    List Package :=
  (templatePackages db tid).filter (fun package => matchPattern package pattern)

/-- Embedding of `Product.package_used` (`product.py`): yield every package of the
product's collection matching the pattern, then set `pattern['product'] =
None` and unconditionally yield from the owning template's `package_used`. -/
def Product.package_used (db : List Package) (pid : Nat) (tid : Nat)
    (pattern : Pattern) : List Package :=
  (productPackages db pid).filter (fun package => matchPattern package pattern) ++
    Template.package_used db tid { pattern with product := some none }

/-- Concrete records exercising the default-uniqueness validation: two default
packages of template 1. -/
def w1pkgA : Package := { id := 1, template := some 1, name := "a" }

/-- Second default package of template 1 for the C1 witness. -/
def w1pkgB : Package := { id := 2, template := some 1, name := "b" }

/-- Concrete database for the C1 witness. -/
def w1db : List Package := [w1pkgA, w1pkgB]

/-- Concrete consumer row for C6: a row with no package whose product 7
belongs to template 5. -/
def c6row : ConsumerRow := { product := 7, product_template := 5 }

/-- Concrete registry for C6: one consumer entity holding `c6row`. -/
def c6registry : List (List ConsumerRow × String) := [([c6row], "consumer.msg")]

/-- Concrete value list for C6: one new package for product 5 (no template). -/
def c6vlist : List PackageValues := [{ product := some 5, name := some ("p") }]

/-- Concrete creation context. -/
def c9ctx2 : CreateContext := { default_uom_digits := 2 }

/-- A second creation context with a different unit precision. -/
def c9ctx7 : CreateContext := { default_uom_digits := 7 }

/-- C9's value list: a name only, every other key absent. -/
def c9vals : PackageValues := { name := some ("unit") }

/-- Variant-level package of product 1 / template 1 used by C8. -/
def c8variantPkg : Package :=
  { id := 1, template := some 1, product := some 1, name := "a" }

/-- Template-level package of template 1 used by C8. -/
def c8templatePkg : Package :=
  { id := 2, template := some 1, name := "b", is_default := false }

/-- Concrete database for C8. -/
def c8db : List Package := [c8variantPkg, c8templatePkg]

/-- The empty pattern (no constraints). -/
def emptyPattern : Pattern := {}

/-- Concrete package for the C5 failing input: a package of product 1. -/
def c5pkg : Package :=
  { id := 1, template := some 1, product := some 1, name := "p" }

/-- Write values carrying only a name, for C7. -/
def nameOnly (nm : String) : WriteValues := { name := some nm }

/-- The blocking condition of one registry entry, as the code evaluates it:
the same OR-domain is searched once against the value list's product ids and
once against its template ids. -/
def entryBlocks (entry : List ConsumerRow × String) (vlist : List PackageValues) : Prop :=
  ∃ row ∈ entry.1, row.product_package = none ∧
    (row.product_template ∈ vlistProducts vlist ∨ row.product ∈ vlistProducts vlist ∨
     row.product_template ∈ vlistTemplates vlist ∨ row.product ∈ vlistTemplates vlist)

/-- A single-default package database used by concrete witnesses. -/
def c7pkg : Package := { id := 3, template := some 1, name := "c" }

/-- C3: for a template and for a product, the derived default-package lookup
returns the `is_default = true` package when one exists in the owner's package
collection (the first such, which is unique under the module's invariant),
otherwise the first package in collection order when the collection is
non-empty, and otherwise none. -/
theorem C3_default_package_lookup (packages : List Package) :
    (packages = [] →
      Template.get_default_package packages = none ∧
      Product.get_default_package packages = none) ∧
    ((∃ p ∈ packages, p.is_default = true) →
      ∃ p, Template.get_default_package packages = some p ∧
        Product.get_default_package packages = some p ∧
        p ∈ packages ∧ p.is_default = true) ∧
    ((∀ p ∈ packages, p.is_default = false) → packages ≠ [] →
      Template.get_default_package packages = packages.head? ∧
      Product.get_default_package packages = packages.head?) := by
  refine ⟨?_, ?_, ?_⟩
  · rintro rfl
    exact ⟨rfl, rfl⟩
  · rintro ⟨p, hp, hdef⟩
    have hne : packages ≠ [] := List.ne_nil_of_mem hp
    have hempty : packages.isEmpty = false := by
      cases packages with
      | nil => exact absurd rfl hne
      | cons a l => rfl
    cases hfind : packages.find? (fun package => package.is_default) with
    | none =>
      exact absurd hdef (List.find?_eq_none.mp hfind p hp)
    | some q =>
      refine ⟨q, ?_, ?_, List.mem_of_find?_eq_some hfind, List.find?_some hfind⟩
      · simp [Template.get_default_package, hempty, hfind]
      · simp [Product.get_default_package, hempty, hfind]
  · intro hall hne
    have hempty : packages.isEmpty = false := by
      cases packages with
      | nil => exact absurd rfl hne
      | cons a l => rfl
    have hfind : packages.find? (fun package => package.is_default) = none :=
      List.find?_eq_none.mpr (fun p hp => by simp [hall p hp])
    constructor
    · simp [Template.get_default_package, hempty, hfind]
    · simp [Product.get_default_package, hempty, hfind]

/-- Witness for C3 at concrete inputs: the empty collection yields no default
package. -/
theorem C3_default_package_lookup_witness :
    Template.get_default_package [] = none ∧ Product.get_default_package [] = none :=
  (C3_default_package_lookup []).1 rfl

/-- Membership in a template's package collection. -/
theorem mem_templatePackages {db : List Package} {tid : Nat} {q : Package} :
    q ∈ templatePackages db tid ↔ q ∈ db ∧ q.template = some tid := by
  simp [templatePackages, List.mem_filter]

/-- Membership in a product's package collection. -/
theorem mem_productPackages {db : List Package} {pid : Nat} {q : Package} :
    q ∈ productPackages db pid ↔ q ∈ db ∧ q.product = some pid := by
  simp [productPackages, List.mem_filter]

/-- A sibling walk over a collection whose defaults all report owner `tid`
already collected fails as soon as the collection holds a default. -/
theorem scan_false_of_mem {f : Package → Option Nat} {tid : Nat} :
    ∀ {sibs : List Package} {seen : List Nat},
      (∀ q ∈ sibs, f q = some tid) → tid ∈ seen → 0 < countDefaults sibs →
      (defaultOwnerScan f sibs seen).2 = false := by
  intro sibs
  induction sibs with
  | nil => intro seen _ _ hpos; simp [countDefaults] at hpos
  | cons q rest ih =>
    intro seen howner hseen hpos
    by_cases hq : q.is_default
    · have hoid : (f q).getD 0 = tid := by rw [howner q (by simp)]; rfl
      simp [defaultOwnerScan, hq, hoid, hseen]
    · have hpos' : 0 < countDefaults rest := by
        simpa [countDefaults, List.filter_cons, hq] using hpos
      simpa [defaultOwnerScan, hq] using
        ih (fun p hp => howner p (by simp [hp])) hseen hpos'

/-- A sibling walk over a collection with two defaults (all owned by `tid`)
fails. -/
theorem scan_false_of_two {f : Package → Option Nat} {tid : Nat} :
    ∀ {sibs : List Package} {seen : List Nat},
      (∀ q ∈ sibs, f q = some tid) → 2 ≤ countDefaults sibs →
      (defaultOwnerScan f sibs seen).2 = false := by
  intro sibs
  induction sibs with
  | nil => intro seen _ h2; simp [countDefaults] at h2
  | cons q rest ih =>
    intro seen howner h2
    by_cases hq : q.is_default
    · have hoid : (f q).getD 0 = tid := by rw [howner q (by simp)]; rfl
      by_cases hs : tid ∈ seen
      · simp [defaultOwnerScan, hq, hoid, hs]
      · have h1 : 0 < countDefaults rest := by
          have : countDefaults (q :: rest) = countDefaults rest + 1 := by
            simp [countDefaults, List.filter_cons, hq]
          omega
        have hscan := scan_false_of_mem
          (fun p hp => howner p (by simp [hp]))
          (show tid ∈ seen ++ [tid] by simp) h1
        simpa [defaultOwnerScan, hq, hoid, hs] using hscan
    · have h2' : 2 ≤ countDefaults rest := by
        simpa [countDefaults, List.filter_cons, hq] using h2
      simpa [defaultOwnerScan, hq] using
        ih (fun p hp => howner p (by simp [hp])) h2'

/-- A successful sibling walk bounds the number of defaults by one. -/
theorem scan_le_one_of_true {f : Package → Option Nat} {tid : Nat}
    {sibs : List Package} {seen : List Nat}
    (howner : ∀ q ∈ sibs, f q = some tid)
    (htrue : (defaultOwnerScan f sibs seen).2 = true) :
    countDefaults sibs ≤ 1 := by
  by_contra hcon
  have h2 : 2 ≤ countDefaults sibs := by omega
  rw [scan_false_of_two howner h2] at htrue
  exact Bool.false_ne_true htrue

/-- A sibling walk over a collection without defaults collects nothing and
succeeds. -/
theorem scan_of_zero {f : Package → Option Nat} :
    ∀ {sibs : List Package} {seen : List Nat},
      countDefaults sibs = 0 → defaultOwnerScan f sibs seen = (seen, true) := by
  intro sibs
  induction sibs with
  | nil => intro seen _; rfl
  | cons q rest ih =>
    intro seen h0
    by_cases hq : q.is_default
    · exfalso
      have : countDefaults (q :: rest) = countDefaults rest + 1 := by
        simp [countDefaults, List.filter_cons, hq]
      omega
    · have h0' : countDefaults rest = 0 := by
        simpa [countDefaults, List.filter_cons, hq] using h0
      simpa [defaultOwnerScan, hq] using ih h0'

/-- A sibling walk over a collection with exactly one default owned by a not
yet collected `tid` collects `tid` and succeeds. -/
theorem scan_of_one {f : Package → Option Nat} {tid : Nat} :
    ∀ {sibs : List Package} {seen : List Nat},
      (∀ q ∈ sibs, f q = some tid) → countDefaults sibs = 1 → tid ∉ seen →
      defaultOwnerScan f sibs seen = (seen ++ [tid], true) := by
  intro sibs
  induction sibs with
  | nil => intro seen _ h1 _; simp [countDefaults] at h1
  | cons q rest ih =>
    intro seen howner h1 hs
    by_cases hq : q.is_default
    · have hoid : (f q).getD 0 = tid := by rw [howner q (by simp)]; rfl
      have h0 : countDefaults rest = 0 := by
        have : countDefaults (q :: rest) = countDefaults rest + 1 := by
          simp [countDefaults, List.filter_cons, hq]
        omega
      simp [defaultOwnerScan, hq, hoid, hs, scan_of_zero h0]
    · have h1' : countDefaults rest = 1 := by
        simpa [countDefaults, List.filter_cons, hq] using h1
      simpa [defaultOwnerScan, hq] using
        ih (fun p hp => howner p (by simp [hp])) h1' hs

/-- Once `is_unique` is false it stays false. -/
theorem validateAux_false (db : List Package) :
    ∀ (pkgs : List Package) (ts ps : List Nat),
      validateAux db pkgs ts ps false = false := by
  intro pkgs
  induction pkgs with
  | nil => intro ts ps; rfl
  | cons q rest ih =>
    intro ts ps
    by_cases hq : q.is_default
    · simpa [validateAux, hq] using ih _ _
    · simpa [validateAux, hq] using ih _ _

/-- Soundness of the validation loop: a run that ends with `is_unique = True`
bounds, for every validated default package, the number of default siblings
of its direct owners by one — whatever the accumulators held. -/
theorem validateAux_sound (db : List Package) :
    ∀ (pkgs : List Package) (ts ps : List Nat) (u : Bool),
      validateAux db pkgs ts ps u = true →
      ∀ p ∈ pkgs, p.is_default = true →
        (∀ tid, p.template = some tid → countDefaults (templatePackages db tid) ≤ 1) ∧
        (∀ pid, p.product = some pid → countDefaults (productPackages db pid) ≤ 1) := by
  intro pkgs
  induction pkgs with
  | nil => intro ts ps u _ p hp; simp at hp
  | cons q rest ih =>
    intro ts ps u h p hp hdef
    by_cases hq : q.is_default
    · rw [validateAux, if_pos hq] at h
      have hT2 : (scanT db q ts).2 = true := by
        by_contra hcon
        rw [Bool.eq_false_iff.mpr hcon] at h
        simp only [Bool.and_false, Bool.false_and] at h
        rw [validateAux_false] at h
        exact Bool.false_ne_true h
      have hP2 : (scanP db q ps).2 = true := by
        by_contra hcon
        rw [Bool.eq_false_iff.mpr hcon] at h
        simp only [Bool.and_false] at h
        rw [validateAux_false] at h
        exact Bool.false_ne_true h
      rcases List.mem_cons.mp hp with rfl | hp'
      · constructor
        · intro tid htid
          have hscan : (defaultOwnerScan Package.template (templatePackages db tid) ts).2 = true := by
            have := hT2
            rw [scanT, htid] at this
            exact this
          exact scan_le_one_of_true
            (fun q' hq' => (mem_templatePackages.mp hq').2) hscan
        · intro pid hpid
          have hscan : (defaultOwnerScan Package.product (productPackages db pid) ps).2 = true := by
            have := hP2
            rw [scanP, hpid] at this
            exact this
          exact scan_le_one_of_true
            (fun q' hq' => (mem_productPackages.mp hq').2) hscan
      · exact ih _ _ _ h p hp' hdef
    · rw [validateAux, if_neg hq] at h
      rcases List.mem_cons.mp hp with rfl | hp'
      · exact absurd hdef hq
      · exact ih _ _ _ h p hp' hdef

/-- Completeness of the validation loop: as soon as one validated default
package has a direct owner with two default siblings, the loop ends with
`is_unique = False` — whatever the accumulators held. -/
theorem validateAux_complete (db : List Package) :
    ∀ (pkgs : List Package) (ts ps : List Nat) (u : Bool),
      (∃ p ∈ pkgs, p.is_default = true ∧
        ((∃ tid, p.template = some tid ∧ 2 ≤ countDefaults (templatePackages db tid)) ∨
         (∃ pid, p.product = some pid ∧ 2 ≤ countDefaults (productPackages db pid)))) →
      validateAux db pkgs ts ps u = false := by
  intro pkgs
  induction pkgs with
  | nil => intro ts ps u hex; simp at hex
  | cons q rest ih =>
    intro ts ps u hex
    rcases hex with ⟨p, hp, hdef, hviol⟩
    rcases List.mem_cons.mp hp with rfl | hp'
    · rw [validateAux, if_pos hdef]
      rcases hviol with ⟨tid, htid, h2⟩ | ⟨pid, hpid, h2⟩
      · have hT2 : (scanT db p ts).2 = false := by
          rw [scanT, htid]
          exact scan_false_of_two (fun q' hq' => (mem_templatePackages.mp hq').2) h2
        rw [hT2]
        simp only [Bool.and_false, Bool.false_and]
        exact validateAux_false db rest _ _
      · have hP2 : (scanP db p ps).2 = false := by
          rw [scanP, hpid]
          exact scan_false_of_two (fun q' hq' => (mem_productPackages.mp hq').2) h2
        rw [hP2]
        simp only [Bool.and_false]
        exact validateAux_false db rest _ _
    · by_cases hq : q.is_default
      · rw [validateAux, if_pos hq]
        exact ih _ _ _ ⟨p, hp', hdef, hviol⟩
      · rw [validateAux, if_neg hq]
        exact ih _ _ _ ⟨p, hp', hdef, hviol⟩

/-- A list containing two distinct elements has length at least two. -/
theorem two_le_length_of_mem_ne {α : Type} [DecidableEq α] {l : List α}
    {a b : α} (hne : b ≠ a) (ha : a ∈ l) (hb : b ∈ l) : 2 ≤ l.length := by
  have hb' : b ∈ l.erase a := (List.mem_erase_of_ne hne).mpr hb
  have h1 : 0 < (l.erase a).length := List.length_pos_of_mem hb'
  have h2 : (l.erase a).length = l.length - 1 := List.length_erase_of_mem ha
  omega

/-- A default package with template `tid` contributes to that template's
default count. -/
theorem mem_defaults_templatePackages {db : List Package} {p : Package} {tid : Nat}
    (hdb : p ∈ db) (ht : p.template = some tid) (hd : p.is_default = true) :
    p ∈ (templatePackages db tid).filter (fun package => package.is_default) :=
  List.mem_filter.mpr ⟨mem_templatePackages.mpr ⟨hdb, ht⟩, hd⟩

/-- A default package with product `pid` contributes to that product's
default count. -/
theorem mem_defaults_productPackages {db : List Package} {p : Package} {pid : Nat}
    (hdb : p ∈ db) (hp : p.product = some pid) (hd : p.is_default = true) :
    p ∈ (productPackages db pid).filter (fun package => package.is_default) :=
  List.mem_filter.mpr ⟨mem_productPackages.mpr ⟨hdb, hp⟩, hd⟩

/-- Success of the validation loop: over stored, duplicate-free records whose
default owners all satisfy the at-most-one-default bound, with accumulators
not yet holding any of those owners, the loop ends with `is_unique = True`. -/
theorem validateAux_ok (db : List Package) :
    ∀ (pkgs : List Package) (ts ps : List Nat),
      (∀ p ∈ pkgs, p ∈ db) → pkgs.Nodup →
      (∀ p ∈ pkgs, p.is_default = true →
        (∀ tid, p.template = some tid →
          countDefaults (templatePackages db tid) ≤ 1 ∧ tid ∉ ts) ∧
        (∀ pid, p.product = some pid →
          countDefaults (productPackages db pid) ≤ 1 ∧ pid ∉ ps)) →
      validateAux db pkgs ts ps true = true := by
  intro pkgs
  induction pkgs with
  | nil => intro ts ps _ _ _; rfl
  | cons q rest ih =>
    intro ts ps hsub hnd hinv
    have hqdb : q ∈ db := hsub q (by simp)
    have hqrest : q ∉ rest := (List.nodup_cons.mp hnd).1
    have hndrest : rest.Nodup := (List.nodup_cons.mp hnd).2
    by_cases hq : q.is_default
    · have hqinv := hinv q (by simp) hq
      have hTres : (scanT db q ts).2 = true ∧
          ∀ tid2 ∈ (scanT db q ts).1, tid2 ∈ ts ∨ q.template = some tid2 := by
        cases htq : q.template with
        | none => rw [scanT, htq]; exact ⟨rfl, fun tid2 h2 => Or.inl h2⟩
        | some tid =>
          have hb := hqinv.1 tid htq
          have hge : 0 < countDefaults (templatePackages db tid) :=
            List.length_pos_of_mem (mem_defaults_templatePackages hqdb htq hq)
          have h1 : countDefaults (templatePackages db tid) = 1 := by omega
          have hsc := scan_of_one (fun q' hq' => (mem_templatePackages.mp hq').2) h1 hb.2
          rw [scanT, htq]
          simp only [hsc]
          refine ⟨trivial, fun tid2 h2 => ?_⟩
          rcases List.mem_append.mp h2 with h2 | h2
          · exact Or.inl h2
          · simp at h2; subst h2; exact Or.inr rfl
      have hPres : (scanP db q ps).2 = true ∧
          ∀ pid2 ∈ (scanP db q ps).1, pid2 ∈ ps ∨ q.product = some pid2 := by
        cases hpq : q.product with
        | none => rw [scanP, hpq]; exact ⟨rfl, fun pid2 h2 => Or.inl h2⟩
        | some pid =>
          have hb := hqinv.2 pid hpq
          have hge : 0 < countDefaults (productPackages db pid) :=
            List.length_pos_of_mem (mem_defaults_productPackages hqdb hpq hq)
          have h1 : countDefaults (productPackages db pid) = 1 := by omega
          have hsc := scan_of_one (fun q' hq' => (mem_productPackages.mp hq').2) h1 hb.2
          rw [scanP, hpq]
          simp only [hsc]
          refine ⟨trivial, fun pid2 h2 => ?_⟩
          rcases List.mem_append.mp h2 with h2 | h2
          · exact Or.inl h2
          · simp at h2; subst h2; exact Or.inr rfl
      rw [validateAux, if_pos hq, hTres.1, hPres.1]
      simp only [Bool.and_true]
      apply ih (scanT db q ts).1 (scanP db q ps).1
        (fun p hp => hsub p (by simp [hp])) hndrest
      intro p hp hpdef
      have hpdb : p ∈ db := hsub p (by simp [hp])
      have hpinv := hinv p (by simp [hp]) hpdef
      have hpq : p ≠ q := fun hpq => hqrest (hpq ▸ hp)
      constructor
      · intro tid htid
        refine ⟨(hpinv.1 tid htid).1, fun hmem => ?_⟩
        rcases hTres.2 tid hmem with hold | hqt
        · exact (hpinv.1 tid htid).2 hold
        · have h2 : 2 ≤ countDefaults (templatePackages db tid) :=
            two_le_length_of_mem_ne hpq
              (mem_defaults_templatePackages hqdb hqt hq)
              (mem_defaults_templatePackages hpdb htid hpdef)
          have := (hpinv.1 tid htid).1
          omega
      · intro pid hpid
        refine ⟨(hpinv.2 pid hpid).1, fun hmem => ?_⟩
        rcases hPres.2 pid hmem with hold | hqp
        · exact (hpinv.2 pid hpid).2 hold
        · have h2 : 2 ≤ countDefaults (productPackages db pid) :=
            two_le_length_of_mem_ne hpq
              (mem_defaults_productPackages hqdb hqp hq)
              (mem_defaults_productPackages hpdb hpid hpdef)
          have := (hpinv.2 pid hpid).1
          omega
    · rw [validateAux, if_neg hq]
      exact ih ts ps (fun p hp => hsub p (by simp [hp])) hndrest
        (fun p hp hdef => hinv p (by simp [hp]) hdef)

/-- Lemma: `Package.validate` succeeds on stored, duplicate-free records whose
default owners satisfy the at-most-one-default bound. -/
theorem validate_ok_of_unique {db pkgs : List Package}
    (hsub : ∀ p ∈ pkgs, p ∈ db) (hnd : pkgs.Nodup)
    (hinv : ∀ p ∈ pkgs, p.is_default = true →
      (∀ tid, p.template = some tid → countDefaults (templatePackages db tid) ≤ 1) ∧
      (∀ pid, p.product = some pid → countDefaults (productPackages db pid) ≤ 1)) :
    Package.validate db pkgs = Except.ok () := by
  have h := validateAux_ok db pkgs [] [] hsub hnd
    (fun p hp hdef =>
      ⟨fun tid htid => ⟨(hinv p hp hdef).1 tid htid, by simp⟩,
       fun pid hpid => ⟨(hinv p hp hdef).2 pid hpid, by simp⟩⟩)
  rw [Package.validate, if_pos h]

/-- Inversion of a successful `Package.create`: the guard and every check
passed, the new records were validated against the post-insert database, and
the result is the old database followed by the new records. -/
theorem create_ok_inv {user : Nat} {check_access : Bool}
    {registry : List (List ConsumerRow × String)} {ctx : CreateContext}
    {db : List Package} {vlist : List PackageValues} {freshId : Nat}
    {db2 : List Package}
    (h : Package.create user check_access registry ctx db vlist freshId = Except.ok db2) :
    check_new_package user check_access registry vlist = Except.ok () ∧
    (assignNew ctx freshId vlist).all (fun p => quantity_sql_check p.quantity) = true ∧
    vlist.all (fun v => v.name.isSome) = true ∧
    Package.validate (db ++ assignNew ctx freshId vlist) (assignNew ctx freshId vlist) = Except.ok () ∧
    db2 = db ++ assignNew ctx freshId vlist := by
  unfold Package.create at h
  cases hg : check_new_package user check_access registry vlist with
  | error e => rw [hg] at h; simp at h
  | ok u0 =>
    cases u0
    rw [hg] at h
    simp only [] at h
    by_cases h1 : ¬ (assignNew ctx freshId vlist).all (fun p => quantity_sql_check p.quantity) = true
    · rw [if_pos h1] at h; simp at h
    · rw [if_neg h1] at h
      by_cases h2 : ¬ vlist.all (fun v => v.name.isSome) = true
      · rw [if_pos h2] at h; simp at h
      · rw [if_neg h2] at h
        by_cases h3 : ¬ (assignNew ctx freshId vlist).all (fun p => quantity_domain p.quantity) = true
        · rw [if_pos h3] at h; simp at h
        · rw [if_neg h3] at h
          cases hv : Package.validate (db ++ assignNew ctx freshId vlist) (assignNew ctx freshId vlist) with
          | error e => rw [hv] at h; simp at h
          | ok u1 =>
            cases u1
            rw [hv] at h
            simp only [] at h
            injection h with h
            exact ⟨rfl, not_not.mp h1, not_not.mp h2, rfl, h.symm⟩

/-- A failing creation guard propagates its message through
`Package.create`. -/
theorem create_guard_error {user : Nat} {check_access : Bool}
    {registry : List (List ConsumerRow × String)} {ctx : CreateContext}
    {db : List Package} {vlist : List PackageValues} {freshId : Nat} {m : String}
    (h : check_new_package user check_access registry vlist = Except.error m) :
    Package.create user check_access registry ctx db vlist freshId = Except.error m := by
  unfold Package.create
  rw [h]

/-- Inversion of a successful `Package.write`: the guard passed, the pairs
applied without tripping the quantity check, and the written records were
validated against the post-write database. -/
theorem write_ok_inv {user : Nat} {check_access : Bool}
    {findPackages : List Nat → Bool} {db : List Package}
    {args : List (List Nat × WriteValues)} {db2 : List Package}
    (h : Package.write user check_access findPackages db args = Except.ok db2) :
    check_no_package user check_access findPackages Package.modify_no_package args = Except.ok () ∧
    applyPairs db args = Except.ok db2 ∧
    Package.validate db2 (db2.filter (fun p => p.id ∈ writtenIds args)) = Except.ok () := by
  unfold Package.write at h
  cases hg : check_no_package user check_access findPackages Package.modify_no_package args with
  | error e => rw [hg] at h; simp at h
  | ok u0 =>
    cases u0
    rw [hg] at h
    simp only [] at h
    cases ha : applyPairs db args with
    | error e => rw [ha] at h; simp at h
    | ok dbx =>
      rw [ha] at h
      simp only [] at h
      cases hv : Package.validate dbx (dbx.filter (fun p => p.id ∈ writtenIds args)) with
      | error e => rw [hv] at h; simp at h
      | ok u1 =>
        cases u1
        rw [hv] at h
        simp only [] at h
        injection h with h
        subst h
        exact ⟨rfl, rfl, hv⟩

/-- Every value-list entry yields a stored record whose quantity is the given
value or the default `1`. -/
theorem assignNew_quantity_mem {ctx : CreateContext} {vlist : List PackageValues}
    {v : PackageValues} (hv : v ∈ vlist) :
    ∀ freshId, ∃ p ∈ assignNew ctx freshId vlist,
      p.quantity = v.quantity.getD Package.default_quantity := by
  induction vlist with
  | nil => exact absurd hv (List.not_mem_nil v)
  | cons w rest ih =>
    intro freshId
    rcases List.mem_cons.mp hv with rfl | hv'
    · exact ⟨_, by rw [assignNew]; exact List.mem_cons_self _ _, rfl⟩
    · obtain ⟨p, hp, hq⟩ := ih hv' (freshId + 1)
      refine ⟨p, ?_, hq⟩
      rw [assignNew]
      exact List.mem_cons_of_mem _ hp

/-- The update `applyVals` never changes the record id. -/
theorem applyVals_id (p : Package) (values : WriteValues) :
    (applyVals p values).id = p.id := rfl

/-- A successful `applyPairs` keeps every quantity positive when the input
database only holds positive quantities. -/
theorem applyPairs_pos {args : List (List Nat × WriteValues)} :
    ∀ {db db2 : List Package},
      (∀ p ∈ db, 0 < p.quantity) →
      applyPairs db args = Except.ok db2 →
      ∀ p ∈ db2, 0 < p.quantity := by
  induction args with
  | nil =>
    intro db db2 hpos h
    rw [applyPairs] at h
    injection h with h
    subst h
    exact hpos
  | cons action rest ih =>
    intro db db2 hpos h
    obtain ⟨records, values⟩ := action
    simp only [applyPairs] at h
    by_cases hcheck :
        ((db.map (fun p => if p.id ∈ records then applyVals p values else p)).filter
            (fun p => decide (p.id ∈ records))).all (fun p => quantity_sql_check p.quantity) = true
    · rw [if_pos hcheck] at h
      refine ih ?_ h
      intro p2 hp2
      obtain ⟨p0, hp0, hmap⟩ := List.mem_map.mp hp2
      by_cases hid : p0.id ∈ records
      · have hp2eq : p2 = applyVals p0 values := by rw [← hmap]; simp [hid]
        have hmem : p2 ∈ (db.map (fun p => if p.id ∈ records then applyVals p values else p)).filter
            (fun p => decide (p.id ∈ records)) := by
          refine List.mem_filter.mpr ⟨hp2, ?_⟩
          rw [hp2eq, applyVals_id]
          simpa using hid
        have hall := List.all_eq_true.mp hcheck p2 hmem
        simpa [quantity_sql_check] using hall
      · have hp2eq : p2 = p0 := by rw [← hmap]; simp [hid]
        rw [hp2eq]
        exact hpos p0 hp0
    · rw [if_neg hcheck] at h
      exact Except.noConfusion h

/-- As soon as one pair writes a non-positive quantity onto at least one
existing record, `applyPairs` fails with the SQL-check message. -/
theorem applyPairs_bad {args : List (List Nat × WriteValues)} :
    ∀ {db : List Package},
      (∃ action ∈ args, ∃ qv, action.2.quantity = some qv ∧ qv ≤ 0 ∧
        ∃ p ∈ db, p.id ∈ action.1) →
      applyPairs db args = Except.error msg_quantity_greater_than_zero := by
  induction args with
  | nil =>
    intro db hex
    simp at hex
  | cons action rest ih =>
    intro db hex
    obtain ⟨records, values⟩ := action
    rcases hex with ⟨action2, haction2, qv, hqv, hle, p0, hp0, hid⟩
    rcases List.mem_cons.mp haction2 with rfl | htail
    · simp only [applyPairs]
      have hbadmem : applyVals p0 values ∈
          (db.map (fun p => if p.id ∈ records then applyVals p values else p)).filter
            (fun p => decide (p.id ∈ records)) := by
        refine List.mem_filter.mpr ⟨?_, ?_⟩
        · refine List.mem_map.mpr ⟨p0, hp0, ?_⟩
          simp only at hid
          simp [hid]
        · rw [applyVals_id]
          simp only at hid
          simpa using hid
      have hallne :
          ¬ ((db.map (fun p => if p.id ∈ records then applyVals p values else p)).filter
              (fun p => decide (p.id ∈ records))).all (fun p => quantity_sql_check p.quantity) = true := by
        intro hco
        have h1 := List.all_eq_true.mp hco _ hbadmem
        have hq2 : (applyVals p0 values).quantity = qv := by
          simp only at hqv
          simp [applyVals, hqv]
        rw [hq2] at h1
        simp only [quantity_sql_check, decide_eq_true_eq] at h1
        exact absurd h1 (not_lt.mpr hle)
      rw [if_neg hallne]
    · simp only [applyPairs]
      by_cases hcheck :
          ((db.map (fun p => if p.id ∈ records then applyVals p values else p)).filter
              (fun p => decide (p.id ∈ records))).all (fun p => quantity_sql_check p.quantity) = true
      · rw [if_pos hcheck]
        refine ih ⟨action2, htail, qv, hqv, hle, ?_⟩
        refine ⟨if p0.id ∈ records then applyVals p0 values else p0, ?_, ?_⟩
        · exact List.mem_map.mpr ⟨p0, hp0, rfl⟩
        · by_cases hmem : p0.id ∈ records
          · simp only [if_pos hmem, applyVals_id]
            exact hid
          · simp only [if_neg hmem]
            exact hid
      · rw [if_neg hcheck]

/-- Characterization of the decorator's consumer-row search. -/
theorem find_packages_rows_iff {rows : List ConsumerRow} {ids : List Nat} :
    find_packages_rows rows ids = true ↔
      ∃ row ∈ rows, row.product_package = none ∧
        (row.product_template ∈ ids ∨ row.product ∈ ids) := by
  simp [find_packages_rows, List.any_eq_true, and_comm]

/-- The registry predicate of `check_new_package` holds exactly on blocking
entries. -/
theorem check_new_package_pred_iff (entry : List ConsumerRow × String)
    (vlist : List PackageValues) :
    (find_packages_rows entry.1 (vlistProducts vlist) ||
      find_packages_rows entry.1 (vlistTemplates vlist)) = true ↔
      entryBlocks entry vlist := by
  rw [Bool.or_eq_true, find_packages_rows_iff, find_packages_rows_iff]
  constructor
  · rintro (⟨row, hrow, hpp, hor⟩ | ⟨row, hrow, hpp, hor⟩)
    · exact ⟨row, hrow, hpp, by tauto⟩
    · exact ⟨row, hrow, hpp, by tauto⟩
  · rintro ⟨row, hrow, hpp, h1 | h2 | h3 | h4⟩
    · exact Or.inl ⟨row, hrow, hpp, Or.inl h1⟩
    · exact Or.inl ⟨row, hrow, hpp, Or.inr h2⟩
    · exact Or.inr ⟨row, hrow, hpp, Or.inl h3⟩
    · exact Or.inr ⟨row, hrow, hpp, Or.inr h4⟩

/-- With the guard active, `check_new_package` succeeds exactly when no
registry entry blocks the value list. -/
theorem check_new_package_ok_iff {user : Nat} {check_access : Bool}
    {registry : List (List ConsumerRow × String)} {vlist : List PackageValues}
    (hactive : user ≠ 0 ∧ check_access = true) :
    check_new_package user check_access registry vlist = Except.ok () ↔
      ∀ entry ∈ registry, ¬ entryBlocks entry vlist := by
  unfold check_new_package
  rw [if_pos hactive]
  simp only []
  cases hf : registry.find? (fun entry =>
      find_packages_rows entry.1 (vlistProducts vlist) ||
        find_packages_rows entry.1 (vlistTemplates vlist)) with
  | some entry =>
    simp only []
    constructor
    · intro h; exact Except.noConfusion h
    · intro hall
      exfalso
      have hmem := List.mem_of_find?_eq_some hf
      have hpred := List.find?_some hf
      exact hall entry hmem ((check_new_package_pred_iff entry vlist).mp hpred)
  | none =>
    simp only []
    constructor
    · intro _ entry hmem hblocks
      have := List.find?_eq_none.mp hf entry hmem
      exact this ((check_new_package_pred_iff entry vlist).mpr hblocks)
    · intro _; trivial

/-- With the guard active, `check_new_package` raises the first blocking
registry entry's message. -/
theorem check_new_package_error_iff {user : Nat} {check_access : Bool}
    {registry : List (List ConsumerRow × String)} {vlist : List PackageValues}
    {m : String} (hactive : user ≠ 0 ∧ check_access = true) :
    check_new_package user check_access registry vlist = Except.error m ↔
      ∃ entry, registry.find? (fun entry =>
          find_packages_rows entry.1 (vlistProducts vlist) ||
            find_packages_rows entry.1 (vlistTemplates vlist)) = some entry ∧
        m = entry.2 := by
  unfold check_new_package
  rw [if_pos hactive]
  simp only []
  cases hf : registry.find? (fun entry =>
      find_packages_rows entry.1 (vlistProducts vlist) ||
        find_packages_rows entry.1 (vlistTemplates vlist)) with
  | some entry =>
    simp only []
    constructor
    · intro h
      injection h with h
      exact ⟨entry, rfl, h.symm⟩
    · rintro ⟨entry2, he2, rfl⟩
      injection he2 with he2
      rw [he2]
  | none =>
    simp only []
    constructor
    · intro h; exact Except.noConfusion h
    · rintro ⟨entry2, he2, rfl⟩
      exact Option.noConfusion he2

/-- Restricting a collection can only lower the default count. -/
theorem countDefaults_templatePackages_le (db : List Package) (tid : Nat) :
    countDefaults (templatePackages db tid) ≤ countDefaults db := by
  have hsub : List.Sublist (templatePackages db tid) db := List.filter_sublist db
  exact (hsub.filter (fun package => package.is_default)).length_le

/-- Restricting a collection can only lower the default count (product
side). -/
theorem countDefaults_productPackages_le (db : List Package) (pid : Nat) :
    countDefaults (productPackages db pid) ≤ countDefaults db := by
  have hsub : List.Sublist (productPackages db pid) db := List.filter_sublist db
  exact (hsub.filter (fun package => package.is_default)).length_le

/-- A record map preserving `template` and `is_default` preserves the default
count of every template collection. -/
theorem countDefaults_templatePackages_map (db : List Package) (g : Package → Package)
    (hg : ∀ p, (g p).template = p.template ∧ (g p).is_default = p.is_default)
    (tid : Nat) :
    countDefaults (templatePackages (db.map g) tid) =
      countDefaults (templatePackages db tid) := by
  unfold countDefaults templatePackages
  rw [List.filter_filter, List.filter_filter, List.filter_map, List.length_map]
  congr 1
  apply List.filter_congr
  intro a _
  simp [Function.comp, (hg a).1, (hg a).2]

/-- A record map preserving `product` and `is_default` preserves the default
count of every product collection. -/
theorem countDefaults_productPackages_map (db : List Package) (g : Package → Package)
    (hg : ∀ p, (g p).product = p.product ∧ (g p).is_default = p.is_default)
    (pid : Nat) :
    countDefaults (productPackages (db.map g) pid) =
      countDefaults (productPackages db pid) := by
  unfold countDefaults productPackages
  rw [List.filter_filter, List.filter_filter, List.filter_map, List.length_map]
  congr 1
  apply List.filter_congr
  intro a _
  simp [Function.comp, (hg a).1, (hg a).2]

/-- C1: after any successful create or write of packages, at most one package
among the siblings directly attached to an owner of a created/written default
package has `is_default = true`; and `Package.validate` raises the `UserError`
with message key `product_package.msg_is_default_unique` whenever a validated
default package's direct owner (template or product) carries two default
siblings.  Stated as: soundness of a passing validation, completeness of the
raise, and the induced invariant on the databases produced by `Package.create`
and `Package.write`. -/
theorem C1_is_default_unique :
    (∀ (db pkgs : List Package), Package.validate db pkgs = Except.ok () →
      ∀ p ∈ pkgs, p.is_default = true →
        (∀ tid, p.template = some tid → countDefaults (templatePackages db tid) ≤ 1) ∧
        (∀ pid, p.product = some pid → countDefaults (productPackages db pid) ≤ 1)) ∧
    (∀ (db pkgs : List Package) (p : Package), p ∈ pkgs → p.is_default = true →
      ((∃ tid, p.template = some tid ∧ 2 ≤ countDefaults (templatePackages db tid)) ∨
       (∃ pid, p.product = some pid ∧ 2 ≤ countDefaults (productPackages db pid))) →
      Package.validate db pkgs = Except.error msg_is_default_unique) ∧
    (∀ user check_access registry ctx db vlist freshId db2,
      Package.create user check_access registry ctx db vlist freshId = Except.ok db2 →
      ∀ p ∈ db2, p ∉ db → p.is_default = true →
        (∀ tid, p.template = some tid → countDefaults (templatePackages db2 tid) ≤ 1) ∧
        (∀ pid, p.product = some pid → countDefaults (productPackages db2 pid) ≤ 1)) ∧
    (∀ user check_access findPackages db args db2,
      Package.write user check_access findPackages db args = Except.ok db2 →
      ∀ p ∈ db2, p.id ∈ writtenIds args → p.is_default = true →
        (∀ tid, p.template = some tid → countDefaults (templatePackages db2 tid) ≤ 1) ∧
        (∀ pid, p.product = some pid → countDefaults (productPackages db2 pid) ≤ 1)) := by
  refine ⟨?_, ?_, ?_, ?_⟩
  · intro db pkgs h p hp hdef
    have hb : validateAux db pkgs [] [] true = true := by
      by_contra hcon
      rw [Package.validate, if_neg hcon] at h
      exact Except.noConfusion h
    exact validateAux_sound db pkgs [] [] true hb p hp hdef
  · intro db pkgs p hp hdef hviol
    have hfalse := validateAux_complete db pkgs [] [] true ⟨p, hp, hdef, hviol⟩
    have hnot : ¬ validateAux db pkgs [] [] true = true := by
      rw [hfalse]; exact Bool.false_ne_true
    rw [Package.validate, if_neg hnot]
  · intro user check_access registry ctx db vlist freshId db2 h p hp hnotold hdef
    obtain ⟨hg, hsql, hname, hvalid, hdb2⟩ := create_ok_inv h
    subst hdb2
    have hpnews : p ∈ assignNew ctx freshId vlist := by
      rcases List.mem_append.mp hp with h1 | h2
      · exact absurd h1 hnotold
      · exact h2
    have hb : validateAux (db ++ assignNew ctx freshId vlist)
        (assignNew ctx freshId vlist) [] [] true = true := by
      by_contra hcon
      rw [Package.validate, if_neg hcon] at hvalid
      exact Except.noConfusion hvalid
    exact validateAux_sound _ _ [] [] true hb p hpnews hdef
  · intro user check_access findPackages db args db2 h p hp hid hdef
    obtain ⟨hg, ha, hvalid⟩ := write_ok_inv h
    have hpw : p ∈ db2.filter (fun p => p.id ∈ writtenIds args) :=
      List.mem_filter.mpr ⟨hp, by simpa using hid⟩
    have hb : validateAux db2 (db2.filter (fun p => p.id ∈ writtenIds args)) [] [] true = true := by
      by_contra hcon
      rw [Package.validate, if_neg hcon] at hvalid
      exact Except.noConfusion hvalid
    exact validateAux_sound _ _ [] [] true hb p hpw hdef

/-- Witness for C1: on a database where template 1 carries two default
packages, validating one of them raises the uniqueness error. -/
theorem C1_is_default_unique_witness :
    Package.validate w1db [w1pkgA] = Except.error msg_is_default_unique :=
  C1_is_default_unique.2.1 w1db [w1pkgA] w1pkgA (by decide) (by decide)
    (Or.inl ⟨1, by decide, by decide⟩)

/-- C2: the quantity of every stored package is positive after any successful
create or update; an attempted create or update carrying `quantity ≤ 0` on an
existing record is rejected with the check-constraint's message key and never
accepted; the field domain and the SQL check constraint express the same
predicate `0 < quantity`. -/
theorem C2_quantity_positive :
    (∀ q : Rat, (quantity_domain q = true ↔ 0 < q) ∧ (quantity_sql_check q = true ↔ 0 < q)) ∧
    (∀ user check_access registry ctx db vlist freshId db2,
      (∀ p ∈ db, 0 < p.quantity) →
      Package.create user check_access registry ctx db vlist freshId = Except.ok db2 →
      ∀ p ∈ db2, 0 < p.quantity) ∧
    (∀ user check_access registry ctx db vlist freshId db2,
      (∃ v ∈ vlist, v.quantity.getD 1 ≤ 0) →
      Package.create user check_access registry ctx db vlist freshId ≠ Except.ok db2) ∧
    (∀ ctx db vlist freshId,
      (∃ v ∈ vlist, v.quantity.getD 1 ≤ 0) →
      Package.create 0 false [] ctx db vlist freshId =
        Except.error msg_quantity_greater_than_zero) ∧
    (∀ user check_access findPackages db args db2,
      (∀ p ∈ db, 0 < p.quantity) →
      Package.write user check_access findPackages db args = Except.ok db2 →
      ∀ p ∈ db2, 0 < p.quantity) ∧
    (∀ check_access findPackages db args,
      (∃ action ∈ args, ∃ qv, action.2.quantity = some qv ∧ qv ≤ 0 ∧
        ∃ p ∈ db, p.id ∈ action.1) →
      Package.write 0 check_access findPackages db args =
        Except.error msg_quantity_greater_than_zero) := by
  refine ⟨?_, ?_, ?_, ?_, ?_, ?_⟩
  · intro q
    constructor
    · simp [quantity_domain]
    · simp [quantity_sql_check]
  · intro user check_access registry ctx db vlist freshId db2 hpos h p hp
    obtain ⟨hg, hsql, hname, hvalid, hdb2⟩ := create_ok_inv h
    subst hdb2
    rcases List.mem_append.mp hp with h1 | h2
    · exact hpos p h1
    · have := List.all_eq_true.mp hsql p h2
      simpa [quantity_sql_check] using this
  · intro user check_access registry ctx db vlist freshId db2 hex h
    rcases hex with ⟨v, hv, hle⟩
    obtain ⟨_, hsql, _, _, _⟩ := create_ok_inv h
    obtain ⟨p, hp, hq⟩ := assignNew_quantity_mem hv freshId
    have hck := List.all_eq_true.mp hsql p hp
    rw [hq] at hck
    simp only [quantity_sql_check, Package.default_quantity, decide_eq_true_eq] at hck
    exact absurd hck (not_lt.mpr hle)
  · intro ctx db vlist freshId hex
    rcases hex with ⟨v, hv, hle⟩
    unfold Package.create
    have hg : check_new_package 0 false [] vlist = Except.ok () := by
      unfold check_new_package
      rw [if_neg (by simp)]
    rw [hg]
    simp only []
    have hall : ¬ (assignNew ctx freshId vlist).all
        (fun p => quantity_sql_check p.quantity) = true := by
      intro hco
      obtain ⟨p, hp, hq⟩ := assignNew_quantity_mem hv freshId
      have hck := List.all_eq_true.mp hco p hp
      rw [hq] at hck
      simp only [quantity_sql_check, Package.default_quantity, decide_eq_true_eq] at hck
      exact absurd hck (not_lt.mpr hle)
    rw [if_pos hall]
  · intro user check_access findPackages db args db2 hpos h p hp
    obtain ⟨hg, ha, hvalid⟩ := write_ok_inv h
    exact applyPairs_pos hpos ha p hp
  · intro check_access findPackages db args hex
    unfold Package.write
    have hg : check_no_package 0 check_access findPackages Package.modify_no_package args =
        Except.ok () := by
      unfold check_no_package
      rw [if_neg (by simp)]
    rw [hg]
    simp only []
    rw [applyPairs_bad hex]

/-- Witness for C2: creating a package with an explicit quantity of `-1`
fails with the check-constraint message. -/
theorem C2_quantity_positive_witness :
    Package.create 0 false [] c9ctx2 [] [{ name := some ("bad"), quantity := some (-1) }] 1 =
      Except.error msg_quantity_greater_than_zero :=
  C2_quantity_positive.2.2.2.1 c9ctx2 [] [{ name := some ("bad"), quantity := some (-1) }] 1
    ⟨{ name := some ("bad"), quantity := some (-1) }, by decide, by decide⟩

/-- Counterexample to C6 as stated: the value list creates a package for
product 5; no consumer row references product 5 (the only row references
product 7) and the value list names no template, yet `Package.create` fails,
because the decorator also matches the row's `product.template` id (5)
against the value list's *product* ids. -/
theorem C6_counterexample :
    (∀ entry ∈ c6registry, ∀ row ∈ entry.1,
      ¬ (row.product_package = none ∧
        (row.product ∈ vlistProducts c6vlist ∨
         row.product_template ∈ vlistTemplates c6vlist))) ∧
    Package.create 1 true c6registry c9ctx2 [] c6vlist 1 =
      Except.error ("consumer.msg") := by
  constructor
  · decide
  · rfl

/-- C6 (amended): with the guard active (non-system user, `_check_access`
set), `Package.create` passes the creation guard iff no registered consumer
entity holds a row with no package whose `product` id or `product.template`
id appears in the value list's product ids or in its template ids — the same
OR-domain is applied to both id lists, so a row whose product's template id
equals a value-list *product* id also blocks creation; a failing guard
propagates its entry's message through `Package.create`, which then creates
nothing. -/
theorem C6_create_guard (user : Nat) (check_access : Bool)
    (registry : List (List ConsumerRow × String)) (vlist : List PackageValues)
    (hactive : user ≠ 0 ∧ check_access = true) :
    (check_new_package user check_access registry vlist = Except.ok () ↔
      ∀ entry ∈ registry, ¬ entryBlocks entry vlist) ∧
    (∀ m ctx db freshId,
      check_new_package user check_access registry vlist = Except.error m →
      Package.create user check_access registry ctx db vlist freshId = Except.error m) ∧
    (∀ ctx db freshId db2,
      Package.create user check_access registry ctx db vlist freshId = Except.ok db2 →
      ∀ entry ∈ registry, ¬ entryBlocks entry vlist) := by
  refine ⟨check_new_package_ok_iff hactive, ?_, ?_⟩
  · intro m ctx db freshId h
    exact create_guard_error h
  · intro ctx db freshId db2 h
    exact (check_new_package_ok_iff hactive).mp (create_ok_inv h).1

/-- Witness for C6's amended statement: the blocked creation of
`C6_counterexample`, derived through the guard theorem. -/
theorem C6_create_guard_witness :
    Package.create 1 true c6registry c9ctx7 [] c6vlist 2 =
      Except.error ("consumer.msg") :=
  (C6_create_guard 1 true c6registry c6vlist ⟨by decide, rfl⟩).2.1
    ("consumer.msg") c9ctx7 [] 2 rfl

/-- C7: `quantity` is the only field in the protected-field registry; with the
guard active, a write that carries a `quantity` value on records the
`find_packages` hook reports as referenced fails with the registry's message;
a write carrying only a `name` never triggers the guard and succeeds (on a
well-formed database: distinct ids, positive quantities, unique defaults),
renaming exactly the targeted records. -/
theorem C7_write_quantity_guard :
    Package.modify_no_package = [("quantity", "product_package.msg_product_package_qty")] ∧
    (∀ user check_access findPackages db records values rest,
      user ≠ 0 → check_access = true →
      values.quantity.isSome = true → findPackages records = true →
      Package.write user check_access findPackages db ((records, values) :: rest) =
        Except.error ("product_package.msg_product_package_qty")) ∧
    (∀ user check_access findPackages db records nm,
      (db.map Package.id).Nodup →
      (∀ p ∈ db, 0 < p.quantity) →
      (∀ tid, countDefaults (templatePackages db tid) ≤ 1) →
      (∀ pid, countDefaults (productPackages db pid) ≤ 1) →
      Package.write user check_access findPackages db [(records, nameOnly nm)] =
        Except.ok (db.map (fun p =>
          if p.id ∈ records then { p with name := nm } else p))) := by
  refine ⟨rfl, ?_, ?_⟩
  · intro user check_access findPackages db records values rest huser hcheck hq hfp
    unfold Package.write
    have hguard : check_no_package user check_access findPackages
        Package.modify_no_package ((records, values) :: rest) =
        Except.error ("product_package.msg_product_package_qty") := by
      unfold check_no_package
      rw [if_pos ⟨huser, hcheck⟩]
      rw [pairsCheck]
      have hfield : fieldsCheck findPackages records values Package.modify_no_package =
          Except.error ("product_package.msg_product_package_qty") := by
        rw [Package.modify_no_package, fieldsCheck]
        rw [if_pos (show hasField values ("quantity") = true from hq)]
        rw [if_pos hfp]
      rw [hfield]
    rw [hguard]
  · intro user check_access findPackages db records nm hids hpos hT hP
    have happlyVals : ∀ p : Package, applyVals p (nameOnly nm) = { p with name := nm } := by
      intro p; rfl
    have hguard : check_no_package user check_access findPackages
        Package.modify_no_package [(records, nameOnly nm)] = Except.ok () := by
      unfold check_no_package
      by_cases hactive : user ≠ 0 ∧ check_access = true
      · rw [if_pos hactive]
        rw [pairsCheck]
        have hfield : fieldsCheck findPackages records (nameOnly nm) Package.modify_no_package =
            Except.ok () := by
          rw [Package.modify_no_package, fieldsCheck]
          rw [if_neg (by simp [hasField, nameOnly])]
          rfl
        rw [hfield]
        rfl
      · rw [if_neg hactive]
    have hgid : ∀ p : Package,
        ((fun p => if p.id ∈ records then { p with name := nm } else p) p).id = p.id := by
      intro p
      by_cases hmem : p.id ∈ records
      · simp [hmem]
      · simp [hmem]
    have hgt : ∀ p : Package,
        ((fun p => if p.id ∈ records then { p with name := nm } else p) p).template = p.template ∧
        ((fun p => if p.id ∈ records then { p with name := nm } else p) p).is_default = p.is_default := by
      intro p
      by_cases hmem : p.id ∈ records
      · simp [hmem]
      · simp [hmem]
    have hgp : ∀ p : Package,
        ((fun p => if p.id ∈ records then { p with name := nm } else p) p).product = p.product ∧
        ((fun p => if p.id ∈ records then { p with name := nm } else p) p).is_default = p.is_default := by
      intro p
      by_cases hmem : p.id ∈ records
      · simp [hmem]
      · simp [hmem]
    have hgq : ∀ p : Package,
        ((fun p => if p.id ∈ records then { p with name := nm } else p) p).quantity = p.quantity := by
      intro p
      by_cases hmem : p.id ∈ records
      · simp [hmem]
      · simp [hmem]
    have happly : applyPairs db [(records, nameOnly nm)] =
        Except.ok (db.map (fun p => if p.id ∈ records then { p with name := nm } else p)) := by
      simp only [applyPairs]
      have hcond : ((db.map (fun p =>
            if p.id ∈ records then applyVals p (nameOnly nm) else p)).filter
              (fun p => decide (p.id ∈ records))).all
            (fun p => quantity_sql_check p.quantity) = true := by
        apply List.all_eq_true.mpr
        intro p2 hp2
        have hp2m : p2 ∈ db.map (fun p =>
            if p.id ∈ records then applyVals p (nameOnly nm) else p) :=
          (List.mem_filter.mp hp2).1
        obtain ⟨p0, hp0, hmap⟩ := List.mem_map.mp hp2m
        have hq2 : p2.quantity = p0.quantity := by
          rw [← hmap]
          by_cases hmem : p0.id ∈ records
          · simp [hmem, applyVals, nameOnly]
          · simp [hmem]
        simp only [quantity_sql_check, decide_eq_true_eq, hq2]
        exact hpos p0 hp0
      rw [if_pos hcond]
      congr 1
    have hval : Package.validate
        (db.map (fun p => if p.id ∈ records then { p with name := nm } else p))
        ((db.map (fun p => if p.id ∈ records then { p with name := nm } else p)).filter
          (fun p => p.id ∈ writtenIds [(records, nameOnly nm)])) = Except.ok () := by
      apply validate_ok_of_unique
      · intro p hp
        exact (List.mem_filter.mp hp).1
      · have hmapids : (db.map (fun p =>
            if p.id ∈ records then { p with name := nm } else p)).map Package.id =
            db.map Package.id := by
          rw [List.map_map]
          apply List.map_congr_left
          intro p _
          exact hgid p
        have hnd : (db.map (fun p =>
            if p.id ∈ records then { p with name := nm } else p)).Nodup := by
          apply List.Nodup.of_map Package.id
          rw [hmapids]
          exact hids
        exact hnd.filter _
      · intro p hp hdef
        constructor
        · intro tid htid
          rw [countDefaults_templatePackages_map db _ hgt tid]
          exact hT tid
        · intro pid hpid
          rw [countDefaults_productPackages_map db _ hgp pid]
          exact hP pid
    unfold Package.write
    rw [hguard]
    simp only []
    rw [happly]
    simp only []
    rw [hval]

/-- Witness for C7: with the creation-time hook reporting references on every
record, a pure rename of package 3 still succeeds. -/
theorem C7_write_quantity_guard_witness :
    Package.write 1 true (fun _ => true) [c7pkg] [([3], nameOnly ("x"))] =
      Except.ok [{ c7pkg with name := "x" }] := by
  have h := C7_write_quantity_guard.2.2 1 true (fun _ => true) [c7pkg] [3] ("x")
    (by decide) (by decide)
    (fun tid => le_trans (countDefaults_templatePackages_le [c7pkg] tid) (by decide))
    (fun pid => le_trans (countDefaults_productPackages_le [c7pkg] pid) (by decide))
  simpa using h

/-- Lockstep description of the framework copy with a template remap: each
copy keeps name, quantity, default flag and product, remaps the template
reference, and receives an id at least `lo`. -/
theorem copyRecords_spec (f : Nat → Nat) (lo : Nat) :
    ∀ (xs : List Package) (freshId : Nat), lo ≤ freshId →
      List.Forall₂ (fun old new =>
        new.name = old.name ∧ new.quantity = old.quantity ∧
        new.is_default = old.is_default ∧ new.product = old.product ∧
        new.template = old.template.map f ∧ lo ≤ new.id)
      xs (Package.copyRecords freshId (some f) none xs) := by
  intro xs
  induction xs with
  | nil => intro freshId _; exact List.Forall₂.nil
  | cons x rest ih =>
    intro freshId hlo
    rw [Package.copyRecords]
    exact List.Forall₂.cons ⟨rfl, rfl, rfl, rfl, rfl, hlo⟩ (ih (freshId + 1) (by omega))

/-- C4: duplicating templates without a caller-supplied `packages` override
copies exactly the template-level packages (those with no `product` set) of
the duplicated templates; each copy keeps name, quantity and default flag,
gets an id no existing record carries, and its template reference is remapped
to the new template's id. -/
theorem C4_template_copy (db : List Package) (templates : List Nat)
    (newTemplateId : Nat → Nat) (freshId : Nat)
    (hfresh : ∀ p ∈ db, p.id < freshId) :
    (∀ q, q ∈ copyTargets db templates ↔
      q ∈ db ∧ q.product = none ∧ ∃ t ∈ templates, q.template = some t) ∧
    Template.copy db templates newTemplateId false freshId =
      db ++ Package.copyRecords freshId (some newTemplateId) none (copyTargets db templates) ∧
    List.Forall₂ (fun old new =>
        new.name = old.name ∧ new.quantity = old.quantity ∧
        new.is_default = old.is_default ∧ new.product = old.product ∧
        new.template = old.template.map newTemplateId ∧ ∀ p ∈ db, p.id ≠ new.id)
      (copyTargets db templates)
      (Package.copyRecords freshId (some newTemplateId) none (copyTargets db templates)) := by
  refine ⟨?_, ?_, ?_⟩
  · intro q
    simp only [copyTargets, List.mem_flatMap, List.mem_filter, mem_templatePackages]
    constructor
    · rintro ⟨t, ht, ⟨⟨hdb, htmpl⟩, hprod⟩⟩
      exact ⟨hdb, by simpa using hprod, t, ht, htmpl⟩
    · rintro ⟨hdb, hprod, t, ht, htmpl⟩
      exact ⟨t, ht, ⟨⟨hdb, htmpl⟩, by simpa using hprod⟩⟩
  · unfold Template.copy
    rw [if_neg (by simp)]
    by_cases hempty : (copyTargets db templates).isEmpty = true
    · rw [if_pos hempty]
      have : copyTargets db templates = [] := List.isEmpty_iff.mp hempty
      rw [this, Package.copyRecords, List.append_nil]
    · rw [if_neg hempty]
  · have h := copyRecords_spec newTemplateId freshId (copyTargets db templates) freshId
      (le_refl freshId)
    refine List.Forall₂.imp ?_ h
    intro old new hrel
    refine ⟨hrel.1, hrel.2.1, hrel.2.2.1, hrel.2.2.2.1, hrel.2.2.2.2.1, ?_⟩
    intro p hp
    have h1 := hfresh p hp
    have h2 := hrel.2.2.2.2.2
    omega

/-- Witness for C4: copying template 1 of the concrete database duplicates
its template-level package only. -/
theorem C4_template_copy_witness :
    Template.copy c8db [1] (fun t => t + 100) false 10 =
      c8db ++ Package.copyRecords 10 (some (fun t => t + 100)) none (copyTargets c8db [1]) :=
  (C4_template_copy c8db [1] (fun t => t + 100) 10 (by decide)).2.1

/-- C5: `Product.copy` with a `product` entry in `default` and no `packages`
override — the branch that is supposed to copy the variant's packages with
remapped references — crashes: its loop header reads the unassigned local
`product` (a typo for `products`), so the embedding returns the
`UnboundLocalError` instead of copied packages. -/
theorem C5_product_copy_crash :
    Product.copy [c5pkg] [{ id := 1, template := 1 }] true false =
      Except.error ("UnboundLocalError: local variable referenced before assignment") := rfl

/-- Counterexample to C8 as stated: under the empty pattern the variant-level
match set of product 1 is non-empty (it holds the variant package), and yet
the template-level package is still yielded by `Product.package_used` — the
fall-through is unconditional, not guarded by an empty variant match set. -/
theorem C8_counterexample :
    (productPackages c8db 1).filter (fun package => matchPattern package emptyPattern) ≠ [] ∧
    c8templatePkg ∈ Product.package_used c8db 1 1 emptyPattern ∧
    c8templatePkg.product = none ∧ c8templatePkg.template = some 1 := by
  refine ⟨by decide, by decide, rfl, rfl⟩

/-- C8 (amended): `Product.package_used` yields the product's own packages
matching the pattern and, unconditionally, the owning template's packages
matching the pattern extended with `product = None`; membership does not
depend on whether the variant-level match set is empty. -/
theorem C8_package_used (db : List Package) (pid tid : Nat) (pattern : Pattern)
    (q : Package) :
    q ∈ Product.package_used db pid tid pattern ↔
      (q ∈ db ∧ q.product = some pid ∧ matchPattern q pattern = true) ∨
      (q ∈ db ∧ q.template = some tid ∧
        matchPattern q { pattern with product := some none } = true) := by
  simp only [Product.package_used, Template.package_used, List.mem_append,
    List.mem_filter, mem_productPackages, mem_templatePackages]
  constructor
  · rintro (⟨⟨hdb, hp⟩, hm⟩ | ⟨⟨hdb, ht⟩, hm⟩)
    · exact Or.inl ⟨hdb, hp, hm⟩
    · exact Or.inr ⟨hdb, ht, hm⟩
  · rintro (⟨hdb, hp, hm⟩ | ⟨hdb, ht, hm⟩)
    · exact Or.inl ⟨⟨hdb, hp⟩, hm⟩
    · exact Or.inr ⟨⟨hdb, ht⟩, hm⟩

/-- Counterexample to C9 as stated: creating a package with only a name
supplied yields quantity 1 and `is_default = true`, but the ordering key is
left unset — identically `none` under unit-of-measure precision 2 and under
precision 7, so it is not defaulted from the context-supplied precision. -/
theorem C9_counterexample :
    Package.create 0 false [] c9ctx2 [] [c9vals] 1 =
      Except.ok [{ id := 1, name := "unit", quantity := 1, is_default := true, sequence := none }] ∧
    Package.create 0 false [] c9ctx7 [] [c9vals] 1 =
      Except.ok [{ id := 1, name := "unit", quantity := 1, is_default := true, sequence := none }] :=
  ⟨rfl, rfl⟩

/-- C9 (amended): on creation with no caller-supplied value, quantity
defaults to 1 and `is_default` defaults to true; the ordering key receives no
default at all — it stays unset whatever unit-of-measure precision the
context supplies. -/
theorem C9_creation_defaults (ctx : CreateContext) (v : PackageValues)
    (nm : String) (freshId : Nat)
    (h1 : v.quantity = none) (h2 : v.is_default = none) (h3 : v.sequence = none)
    (h4 : v.name = some nm) (h5 : v.template = none) (h6 : v.product = none) :
    Package.create 0 false [] ctx [] [v] freshId =
      Except.ok [{ id := freshId, template := none, product := none, name := nm, quantity := 1, is_default := true, sequence := none }] := by
  unfold Package.create
  have hg : check_new_package 0 false [] [v] = Except.ok () := by
    unfold check_new_package
    rw [if_neg (by simp)]
  rw [hg]
  simp only []
  have hnews : assignNew ctx freshId [v] =
      [{ id := freshId, template := none, product := none, name := nm, quantity := 1, is_default := true, sequence := none }] := by
    rw [assignNew, assignNew]
    rw [h1, h2, h3, h4, h5, h6]
    rfl
  rw [hnews]
  rw [if_neg (by simp [quantity_sql_check])]
  rw [if_neg (by simp [h4])]
  rw [if_neg (by simp [quantity_domain])]
  have hval : Package.validate
      ([] ++ [{ id := freshId, template := none, product := none, name := nm, quantity := 1, is_default := true, sequence := none }])
      [{ id := freshId, template := none, product := none, name := nm, quantity := 1, is_default := true, sequence := none }] = Except.ok () := by
    unfold Package.validate
    rw [if_pos]
    rw [validateAux]
    rw [if_pos rfl]
    rfl
  rw [hval]
  rfl

/-- Witness for C9's amended statement: the defaults at precision 7. -/
theorem C9_creation_defaults_witness :
    Package.create 0 false [] c9ctx7 [] [c9vals] 5 =
      Except.ok [{ id := 5, template := none, product := none, name := "unit", quantity := 1, is_default := true, sequence := none }] :=
  C9_creation_defaults c9ctx7 c9vals ("unit") 5 rfl rfl rfl rfl rfl rfl

/-- C10: within this module alone neither access guard can raise: the
creation registry `_create_package` is installed empty, the base
`find_packages` returns `False` on every input, and with those values both
`check_new_package` and `check_no_package` succeed for every user, context
flag and argument list. -/
theorem C10_guards_inert :
    Package.create_package_registry = ([] : List (List ConsumerRow × String)) ∧
    (∀ records, Package.find_packages records = false) ∧
    (∀ user check_access vlist,
      check_new_package user check_access Package.create_package_registry vlist =
        Except.ok ()) ∧
    (∀ user check_access args,
      check_no_package user check_access Package.find_packages
        Package.modify_no_package args = Except.ok ()) := by
  refine ⟨rfl, fun _ => rfl, ?_, ?_⟩
  · intro user check_access vlist
    unfold check_new_package
    by_cases hactive : user ≠ 0 ∧ check_access = true
    · rw [if_pos hactive]
      rfl
    · rw [if_neg hactive]
  · intro user check_access args
    unfold check_no_package
    by_cases hactive : user ≠ 0 ∧ check_access = true
    · rw [if_pos hactive]
      induction args with
      | nil => rfl
      | cons action rest ih =>
        obtain ⟨records, values⟩ := action
        rw [pairsCheck]
        have hfield : fieldsCheck Package.find_packages records values
            Package.modify_no_package = Except.ok () := by
          rw [Package.modify_no_package, fieldsCheck]
          by_cases hq : hasField values ("quantity") = true
          · rw [if_pos hq]
            rw [if_neg (by simp [Package.find_packages])]
          · rw [if_neg hq]
            rfl
        rw [hfield]
        exact ih
    · rw [if_neg hactive]
